import Mathlib

/-!
Verification of the rate-limit and escalation engine of the `tower`
repository (`internal/logic/limiter.go`, `internal/db/db.go`).

Shallow embedding conventions:
* Timestamps and durations are integers counted in whole seconds, so
  `time.Duration.Seconds()` of a window is the window itself and
  `a.Before(b)` / `a.After(b)` become `a < b` / `b < a`.
* The Go methods take their "now" from `time.Now()`; here the moment of the
  call is an explicit argument (for `LogRequest` it is the request's own
  timestamp, which is how the transport layer calls it).
* Maps `map[string]T` become functions `String → Option T` (or
  `String → List Int` for the counter maps, whose zero value is the empty
  slice).
* The durable `banned_ips` table (one row per IP, upsert on conflict)
  becomes a `List Ban`; `BanIP` removes any row with the same key and
  appends the new one, `UnbanIP` filters the key out.
* Fallible store writes surface as an explicit `dbErr` flag standing for
  the driver's error return; the success path is `dbErr = false`.
-/

namespace Tower

/-- Source `logic.Action`: escalation decision kind. -/
inductive Action where
  | ALLOW
  | FLAG
  | THROTTLE
  | BAN
deriving Repr, DecidableEq

/-- Source `logic.Decision`: result of inspecting or logging a request.
Zero values `""` / `0` stand for Go's omitted `reason` / `retry_after`. -/
structure Decision where
  action : Action
  ip : String
  reason : String
  retryAfter : Int
deriving Repr, DecidableEq

/-- Source `logic.RequestLog`: one request event. -/
structure RequestLog where
  Time : Int
  IP : String
  Method : String
  Path : String
deriving Repr, DecidableEq

/-- Source `db.Ban`: a ban record; `ExpiresAt = none` means permanent. -/
structure Ban where
  IP : String
  Reason : String
  BannedAt : Int
  ExpiresAt : Option Int
deriving Repr, DecidableEq

/-- Go's zero value `db.Ban{}`. -/
def emptyBan : Ban := ⟨"", "", 0, none⟩

/-- Relevant fields of `config.Config`. Counts are `Nat` (the Go fields are
nonnegative ints in every constructible configuration). -/
structure Config where
  requestWindow : Int
  requestLimit : Nat
  throttleWindow : Int
  throttleLimit : Nat
  banDuration : Int
  inMemoryLogLimit : Nat
deriving Repr, DecidableEq

/-- Pointwise update of a string-keyed map. -/
def updateFun {β : Type} (m : String → β) (k : String) (v : β) : String → β :=
  fun x => if x = k then v else m x

/-- Mutable state of `logic.Limiter` (the fields behind the mutex). -/
structure Limiter where
  reqByIP : String → List Int
  flaggedIPs : String → Option Int
  throttleByIP : String → List Int
  bannedCache : String → Option Ban
  recentRequests : List RequestLog

/-- Source `logic.NewLimiter`: all maps empty, ring empty. -/
def NewLimiter : Limiter where
  reqByIP := fun _ => []
  flaggedIPs := fun _ => none
  throttleByIP := fun _ => []
  bannedCache := fun _ => none
  recentRequests := []

/-- The loop body of `prune`: advance while the head is strictly before the
cutoff, then return the remaining suffix. -/
def pruneFrom : List Int → Int → List Int
  | [], _ => []
  | t :: rest, cut => if t < cut then pruneFrom rest cut else t :: rest

/-- Source `logic.prune`: drop the prefix of timestamps strictly older than
`now - window` and return the rest of the slice. -/
def prune (ts : List Int) (window : Int) (now : Int) : List Int :=
  pruneFrom ts (now - window)

/-- Source `Limiter.LogRequest`: append to the ring, prune-and-append the request
counter, then walk the ALLOW → FLAG → THROTTLE → BAN ladder.  The ban
mirror and the store are never consulted. -/
def LogRequest (cfg : Config) (s : Limiter) (r : RequestLog) :
    Decision × Limiter :=
  let recent :=
    (if cfg.inMemoryLogLimit ≤ s.recentRequests.length then
      s.recentRequests.drop 1
    else s.recentRequests) ++ [r]
  let reqs := prune (s.reqByIP r.IP) cfg.requestWindow r.Time ++ [r.Time]
  let s1 : Limiter :=
    { s with recentRequests := recent, reqByIP := updateFun s.reqByIP r.IP reqs }
  if reqs.length ≤ cfg.requestLimit then
    (⟨Action.ALLOW, r.IP, "", 0⟩, s1)
  else if (s1.flaggedIPs r.IP).isNone then
    (⟨Action.FLAG, r.IP, "suspicious activity detected", 0⟩,
      { s1 with flaggedIPs := updateFun s1.flaggedIPs r.IP (some r.Time) })
  else
    let thr := prune (s1.throttleByIP r.IP) cfg.throttleWindow r.Time ++ [r.Time]
    let s2 : Limiter := { s1 with throttleByIP := updateFun s1.throttleByIP r.IP thr }
    if cfg.throttleLimit ≤ thr.length then
      (⟨Action.BAN, r.IP, "auto-ban: repeated throttling", 0⟩, s2)
    else
      (⟨Action.THROTTLE, r.IP, "rate limit exceeded", cfg.requestWindow⟩, s2)

/-- Source `db.DB.BanIP`: upsert by primary key `ip`. -/
def banIP (store : List Ban) (b : Ban) : List Ban :=
  store.filter (fun e => e.IP != b.IP) ++ [b]

/-- Source `db.DB.UnbanIP`: delete by key; idempotent. -/
def unbanIP (store : List Ban) (ip : String) : List Ban :=
  store.filter (fun e => e.IP != ip)

/-- Source `db.DB.GetBan`: single-key lookup in the durable table. -/
def getBan (store : List Ban) (ip : String) : Option Ban :=
  store.find? (fun e => e.IP == ip)

/-- Source `Limiter.LoadBans`: hydrate the mirror from `db.ListBans()` (the table
holds at most one row per IP, so enumeration order is immaterial). -/
def LoadBans (s : Limiter) (store : List Ban) : Limiter :=
  { s with
    bannedCache := store.foldl (fun m b => updateFun m b.IP (some b)) s.bannedCache }

/-- Source `Limiter.IsBanned`: mirror lookup with lazy expiry; an expired entry is
removed from the mirror and deleted from the store (the Go code ignores the
delete's error; the success path is modelled). -/
def IsBanned (s : Limiter) (store : List Ban) (now : Int) (ip : String) :
    (Bool × Ban) × Limiter × List Ban :=
  match s.bannedCache ip with
  | none => ((false, emptyBan), s, store)
  | some b =>
    match b.ExpiresAt with
    | some e =>
      if e < now then
        ((false, emptyBan),
          { s with bannedCache := updateFun s.bannedCache ip none },
          unbanIP store ip)
      else ((true, b), s, store)
    | none => ((true, b), s, store)

/-- The tail of `Limiter.Inspect` after the ban check: throttle state, then
flagged state, then ALLOW.  The pruned throttle slice is a local; the map
itself is not written back. -/
def inspectTail (cfg : Config) (s : Limiter) (store : List Ban) (now : Int)
    (ip : String) : Decision × Limiter × List Ban :=
  let throttles := prune (s.throttleByIP ip) cfg.throttleWindow now
  if 0 < throttles.length then
    (⟨Action.THROTTLE, ip, "rate limit exceeded", cfg.requestWindow⟩, s, store)
  else if (s.flaggedIPs ip).isSome then
    (⟨Action.FLAG, ip, "suspicious activity detected", 0⟩, s, store)
  else
    (⟨Action.ALLOW, ip, "", 0⟩, s, store)

/-- Source `Limiter.Inspect`: ban (with lazy expiry) → throttle → flagged → allow,
recording nothing. -/
def Inspect (cfg : Config) (s : Limiter) (store : List Ban) (now : Int)
    (ip : String) : Decision × Limiter × List Ban :=
  match s.bannedCache ip with
  | some b =>
    match b.ExpiresAt with
    | some e =>
      if e < now then
        inspectTail cfg
          { s with bannedCache := updateFun s.bannedCache ip none }
          (unbanIP store ip) now ip
      else (⟨Action.BAN, ip, b.Reason, 0⟩, s, store)
    | none => (⟨Action.BAN, ip, b.Reason, 0⟩, s, store)
  | none => inspectTail cfg s store now ip

/-- Source `Limiter.RecordBan`: build the auto-ban with `expires_at = now +
ban_duration`, write it through `db.BanIP`, then mirror it.  `dbErr` is the
store write failing, in which case nothing is mutated and the error is
returned. -/
def RecordBan (cfg : Config) (s : Limiter) (store : List Ban) (dbErr : Bool)
    (now : Int) (ip reason : String) :
    Except String Ban × Limiter × List Ban :=
  let b : Ban := ⟨ip, reason, now, some (now + cfg.banDuration)⟩
  if dbErr then (Except.error "storage error", s, store)
  else
    (Except.ok b,
      { s with bannedCache := updateFun s.bannedCache ip (some b) },
      banIP store b)

/-- Source `Limiter.RecordManualBan`: permanent when `duration ≤ 0`. -/
def RecordManualBan (_cfg : Config) (s : Limiter) (store : List Ban)
    (dbErr : Bool) (now : Int) (ip reason : String) (duration : Int) :
    Except String Ban × Limiter × List Ban :=
  let exp : Option Int := if 0 < duration then some (now + duration) else none
  let b : Ban := ⟨ip, reason, now, exp⟩
  if dbErr then (Except.error "storage error", s, store)
  else
    (Except.ok b,
      { s with bannedCache := updateFun s.bannedCache ip (some b) },
      banIP store b)

/-- Source `Limiter.Unban`: the mirror entry is deleted first, unconditionally;
then the store delete runs and its error, if any, is returned as-is. -/
def Unban (s : Limiter) (store : List Ban) (dbErr : Bool) (ip : String) :
    Except String Unit × Limiter × List Ban :=
  let s1 : Limiter := { s with bannedCache := updateFun s.bannedCache ip none }
  if dbErr then (Except.error "storage error", s1, store)
  else (Except.ok (), s1, unbanIP store ip)

/-- Engine plus the durable `banned_ips` table it talks to. -/
structure Sys where
  lim : Limiter
  store : List Ban

/-- One serial call on the engine's public surface.  The `Bool` on the
mutating store calls is the driver reporting an error. -/
inductive Op where
  | logReq : RequestLog → Op
  | bannedQ : Int → String → Op
  | inspectQ : Int → String → Op
  | unbanQ : Bool → String → Op
  | banQ : Bool → Int → String → String → Op
  | manualBanQ : Bool → Int → String → String → Int → Op
  | loadQ : Op

/-- Serial small-step: run one call, returning the new system state and the
`Decision` the call produced, if it produces one. -/
def step (cfg : Config) (s : Sys) : Op → Sys × Option Decision
  | Op.logReq r =>
    let res := LogRequest cfg s.lim r
    (⟨res.2, s.store⟩, some res.1)
  | Op.bannedQ now ip =>
    let res := IsBanned s.lim s.store now ip
    (⟨res.2.1, res.2.2⟩, none)
  | Op.inspectQ now ip =>
    let res := Inspect cfg s.lim s.store now ip
    (⟨res.2.1, res.2.2⟩, some res.1)
  | Op.unbanQ e ip =>
    let res := Unban s.lim s.store e ip
    (⟨res.2.1, res.2.2⟩, none)
  | Op.banQ e now ip reason =>
    let res := RecordBan cfg s.lim s.store e now ip reason
    (⟨res.2.1, res.2.2⟩, none)
  | Op.manualBanQ e now ip reason dur =>
    let res := RecordManualBan cfg s.lim s.store e now ip reason dur
    (⟨res.2.1, res.2.2⟩, none)
  | Op.loadQ => (⟨LoadBans s.lim s.store, s.store⟩, none)

/-- Run a serial sequence of calls. -/
def runOps (cfg : Config) (s : Sys) : List Op → Sys
  | [] => s
  | op :: ops => runOps cfg (step cfg s op).1 ops

/-- One when this call is a `LogRequest` that returned FLAG for `x`, else zero. -/
def flagStep (x : String) (op : Op) (d : Option Decision) : Nat :=
  match op, d with
  | Op.logReq _, some dec =>
    if dec.action = Action.FLAG ∧ dec.ip = x then 1 else 0
  | _, _ => 0

/-- How many calls of the sequence are `LogRequest`s answered FLAG for `x`. -/
def flagCount (cfg : Config) (x : String) (s : Sys) : List Op → Nat
  | [] => 0
  | op :: ops =>
    flagStep x op (step cfg s op).2 + flagCount cfg x (step cfg s op).1 ops

/-- The ladder's decision as the specification words it: the count `c` is
the pruned request sequence with `t` appended. -/
def ladderDecision (cfg : Config) (s : Limiter) (r : RequestLog) : Decision :=
  let c := (prune (s.reqByIP r.IP) cfg.requestWindow r.Time).length + 1
  if c ≤ cfg.requestLimit then ⟨Action.ALLOW, r.IP, "", 0⟩
  else if (s.flaggedIPs r.IP).isNone then
    ⟨Action.FLAG, r.IP, "suspicious activity detected", 0⟩
  else if
      cfg.throttleLimit ≤
        (prune (s.throttleByIP r.IP) cfg.throttleWindow r.Time).length + 1 then
    ⟨Action.BAN, r.IP, "auto-ban: repeated throttling", 0⟩
  else ⟨Action.THROTTLE, r.IP, "rate limit exceeded", cfg.requestWindow⟩

/-- The flagged set after the call, as the specification words it: `x` is
inserted exactly on the flagging transition. -/
def ladderFlagged (cfg : Config) (s : Limiter) (r : RequestLog) :
    String → Option Int :=
  if (prune (s.reqByIP r.IP) cfg.requestWindow r.Time).length + 1 ≤ cfg.requestLimit then
    s.flaggedIPs
  else if (s.flaggedIPs r.IP).isNone then
    updateFun s.flaggedIPs r.IP (some r.Time)
  else s.flaggedIPs

/-- The throttle counter map after the call, as the specification words it:
untouched on ALLOW and on the flagging transition, pruned-and-appended only
for an already-flagged IP over the limit. -/
def ladderThrottles (cfg : Config) (s : Limiter) (r : RequestLog) :
    String → List Int :=
  if (prune (s.reqByIP r.IP) cfg.requestWindow r.Time).length + 1 ≤ cfg.requestLimit then
    s.throttleByIP
  else if (s.flaggedIPs r.IP).isNone then
    s.throttleByIP
  else
    updateFun s.throttleByIP r.IP
      (prune (s.throttleByIP r.IP) cfg.throttleWindow r.Time ++ [r.Time])

/-- The ban the mirror holds for `ip`, provided it has not expired at
`now` — the guard of the claim's "unexpired mirror ban". -/
def unexpiredBan (s : Limiter) (now : Int) (ip : String) : Option Ban :=
  match s.bannedCache ip with
  | none => none
  | some b =>
    match b.ExpiresAt with
    | none => some b
    | some e => if e < now then none else some b

/-- Decision of `Inspect` as the claim words it: banned → throttling →
flagged → allow. -/
def inspectClaimDecision (cfg : Config) (s : Limiter) (now : Int)
    (ip : String) : Decision :=
  match unexpiredBan s now ip with
  | some b => ⟨Action.BAN, ip, b.Reason, 0⟩
  | none =>
    if prune (s.throttleByIP ip) cfg.throttleWindow now ≠ [] then
      ⟨Action.THROTTLE, ip, "rate limit exceeded", cfg.requestWindow⟩
    else if (s.flaggedIPs ip).isSome then
      ⟨Action.FLAG, ip, "suspicious activity detected", 0⟩
    else ⟨Action.ALLOW, ip, "", 0⟩

/-! ## Helper lemmas -/

lemma pruneFrom_suffix (ts : List Int) (cut : Int) : pruneFrom ts cut <:+ ts := by
  induction ts with
  | nil => simp [pruneFrom]
  | cons a l ih =>
    by_cases h : a < cut
    · simp only [pruneFrom, if_pos h]
      exact ih.trans (List.suffix_cons a l)
    · simp [pruneFrom, if_neg h]

lemma pruneFrom_sorted_filter (ts : List Int) (cut : Int)
    (hs : List.Sorted (· ≤ ·) ts) :
    pruneFrom ts cut = ts.filter (fun τ => decide (cut ≤ τ)) := by
  induction ts with
  | nil => simp [pruneFrom]
  | cons a l ih =>
    rcases List.sorted_cons.mp hs with ⟨ha, hl⟩
    by_cases h : a < cut
    · have : ¬ cut ≤ a := not_le.mpr h
      simp only [pruneFrom, if_pos h, List.filter_cons, decide_eq_true_eq]
      rw [if_neg this]
      exact ih hl
    · have hca : cut ≤ a := not_lt.mp h
      simp only [pruneFrom, if_neg h, List.filter_cons, decide_eq_true_eq]
      rw [if_pos hca]
      have : l.filter (fun τ => decide (cut ≤ τ)) = l :=
        List.filter_eq_self.mpr fun b hb =>
          decide_eq_true (le_trans hca (ha b hb))
      rw [this]

/-! ## Claims -/

/-- C7 counterexample: the claim quantifies over every timestamp sequence,
but `prune` only strips a prefix, so on the unsorted sequence `[5, 0]` with
window `0` at moment `3` the timestamp `0`, strictly older than `3 - 0`, is
retained. -/
theorem prune_unsorted_counterexample :
    prune [5, 0] 0 3 = [5, 0] ∧ (0 : Int) ∈ prune [5, 0] 0 3 ∧
      (0 : Int) < 3 - 0 := by decide

/-- C7 (amended): for a non-decreasing timestamp sequence, pruning at
moment `t` with window `w` removes exactly the timestamps strictly older
than `t - w`, returns the remaining suffix in order, and every retained
timestamp `τ` satisfies `τ ≥ t - w` (the boundary `τ = t - w` is
retained). -/
theorem prune_window_correct (ts : List Int) (w t : Int)
    (hs : List.Sorted (· ≤ ·) ts) :
    prune ts w t = ts.filter (fun τ => decide (t - w ≤ τ)) ∧
    prune ts w t <:+ ts ∧
    ∀ τ ∈ prune ts w t, t - w ≤ τ := by
  refine ⟨pruneFrom_sorted_filter ts (t - w) hs, pruneFrom_suffix ts (t - w), ?_⟩
  intro τ hτ
  rw [prune, pruneFrom_sorted_filter ts (t - w) hs] at hτ
  exact of_decide_eq_true (List.mem_filter.mp hτ).2

/-- C7 witness: the amended statement applied to the concrete sorted
sequence `[0, 2, 3]`, window `1`, moment `3` — the boundary timestamp `2`
is retained. -/
theorem prune_window_correct_witness :
    List.Sorted (· ≤ ·) [(0 : Int), 2, 3] ∧
      prune [(0 : Int), 2, 3] 1 3 = [2, 3] ∧
      ∀ τ ∈ prune [(0 : Int), 2, 3] 1 3, (3 : Int) - 1 ≤ τ :=
  ⟨by decide, by decide,
    (prune_window_correct [(0 : Int), 2, 3] 1 3 (by decide)).2.2⟩

/-- C10: `Unban` deletes the mirror entry unconditionally before the store
delete; on a store error the error is returned, the store is untouched,
and the mirror deletion is not rolled back; on success the row is deleted
from the store as well. -/
theorem unban_mirror_first (s : Limiter) (store : List Ban) (ip : String)
    (e : Bool) :
    ((Unban s store e ip).2.1.bannedCache ip = none) ∧
    (e = true →
      (Unban s store e ip).1 = Except.error "storage error" ∧
      (Unban s store e ip).2.2 = store) ∧
    (e = false →
      (Unban s store e ip).1 = Except.ok () ∧
      (Unban s store e ip).2.2 = unbanIP store ip) := by
  cases e <;> simp [Unban, updateFun]

/-- C10 witness: a failed `Unban` of a banned IP leaves the ban row in the
store while the mirror no longer has it. -/
theorem unban_mirror_first_witness :
    ((Unban (LoadBans NewLimiter [⟨"7.7.7.7", "r", 0, none⟩])
        [⟨"7.7.7.7", "r", 0, none⟩] true "7.7.7.7").2.1.bannedCache
      "7.7.7.7" = none) ∧
    (Unban (LoadBans NewLimiter [⟨"7.7.7.7", "r", 0, none⟩])
        [⟨"7.7.7.7", "r", 0, none⟩] true "7.7.7.7").2.2 =
      [⟨"7.7.7.7", "r", 0, none⟩] :=
  ⟨(unban_mirror_first (LoadBans NewLimiter [⟨"7.7.7.7", "r", 0, none⟩])
      [⟨"7.7.7.7", "r", 0, none⟩] "7.7.7.7" true).1,
    ((unban_mirror_first (LoadBans NewLimiter [⟨"7.7.7.7", "r", 0, none⟩])
      [⟨"7.7.7.7", "r", 0, none⟩] "7.7.7.7" true).2.1 rfl).2⟩

/-- C8: `LogRequest` neither reads nor writes the ban mirror — two states
differing only in `bannedCache` produce the same `Decision` and the same
updates to every other field (two-run noninterference w.r.t. the ban
state). -/
theorem logRequest_ban_noninterference (cfg : Config) (s : Limiter)
    (cache2 : String → Option Ban) (r : RequestLog) :
    (LogRequest cfg { s with bannedCache := cache2 } r).1 =
      (LogRequest cfg s r).1 ∧
    (LogRequest cfg { s with bannedCache := cache2 } r).2 =
      { (LogRequest cfg s r).2 with bannedCache := cache2 } ∧
    (LogRequest cfg s r).2.bannedCache = s.bannedCache := by
  by_cases h1 :
    (prune (s.reqByIP r.IP) cfg.requestWindow r.Time).length + 1 ≤
      cfg.requestLimit
  · simp [LogRequest, h1]
  · by_cases h2 : s.flaggedIPs r.IP = none
    · simp [LogRequest, h1, h2]
    · by_cases h3 :
        cfg.throttleLimit ≤
          (prune (s.throttleByIP r.IP) cfg.throttleWindow r.Time).length + 1
      · simp [LogRequest, h1, h2, h3]
      · simp [LogRequest, h1, h2, h3]

/-- C1: the decision ladder of `LogRequest` is exactly the specification's:
with `c` the pruned-then-appended request count, `c ≤ request_limit` gives
ALLOW; otherwise a not-yet-flagged IP is inserted into the flagged set and
answered FLAG with the throttle counter untouched; otherwise the throttle
counter is pruned-and-appended and the answer is BAN at
`throttle_limit` or above, else THROTTLE with `retry_after =
request_window` seconds. -/
theorem logRequest_ladder (cfg : Config) (s : Limiter) (r : RequestLog) :
    (LogRequest cfg s r).1 = ladderDecision cfg s r ∧
    (LogRequest cfg s r).2.reqByIP =
      updateFun s.reqByIP r.IP
        (prune (s.reqByIP r.IP) cfg.requestWindow r.Time ++ [r.Time]) ∧
    (LogRequest cfg s r).2.flaggedIPs = ladderFlagged cfg s r ∧
    (LogRequest cfg s r).2.throttleByIP = ladderThrottles cfg s r := by
  by_cases h1 :
    (prune (s.reqByIP r.IP) cfg.requestWindow r.Time).length + 1 ≤
      cfg.requestLimit
  · simp [LogRequest, ladderDecision, ladderFlagged, ladderThrottles, h1]
  · by_cases h2 : s.flaggedIPs r.IP = none
    · simp [LogRequest, ladderDecision, ladderFlagged, ladderThrottles, h1, h2]
    · by_cases h3 :
        cfg.throttleLimit ≤
          (prune (s.throttleByIP r.IP) cfg.throttleWindow r.Time).length + 1
      · simp [LogRequest, ladderDecision, ladderFlagged, ladderThrottles,
          h1, h2, h3]
      · simp [LogRequest, ladderDecision, ladderFlagged, ladderThrottles,
          h1, h2, h3]

/-- C6: `Inspect` records no request event (request counters and the ring
are untouched) and decides in the order banned → throttling → flagged →
allow: an unexpired mirror ban gives BAN with the ban's reason, else a
non-empty pruned throttle sequence gives THROTTLE with `retry_after =
request_window` (even if the IP is under the request limit), else flagged
membership gives FLAG, else ALLOW. -/
theorem inspect_ordering (cfg : Config) (s : Limiter) (store : List Ban)
    (now : Int) (ip : String) :
    (Inspect cfg s store now ip).1 = inspectClaimDecision cfg s now ip ∧
    (Inspect cfg s store now ip).2.1.reqByIP = s.reqByIP ∧
    (Inspect cfg s store now ip).2.1.recentRequests = s.recentRequests := by
  rcases hb : s.bannedCache ip with _ | b
  · simp only [Inspect, inspectClaimDecision, unexpiredBan, hb]
    by_cases ht : prune (s.throttleByIP ip) cfg.throttleWindow now = []
    · by_cases hf : (s.flaggedIPs ip).isSome = true <;>
        simp [inspectTail, ht, hf]
    · simp [inspectTail, ht, List.length_pos.mpr ht]
  · rcases he : b.ExpiresAt with _ | e
    · simp [Inspect, inspectClaimDecision, unexpiredBan, hb, he]
    · by_cases hlt : e < now
      · simp only [Inspect, inspectClaimDecision, unexpiredBan, hb, he,
          if_pos hlt]
        by_cases ht : prune (s.throttleByIP ip) cfg.throttleWindow now = []
        · by_cases hf : (s.flaggedIPs ip).isSome = true <;>
            simp [inspectTail, ht, hf]
        · simp [inspectTail, ht, List.length_pos.mpr ht]
      · simp [Inspect, inspectClaimDecision, unexpiredBan, hb, he, hlt]

lemma inspectTail_snd (cfg : Config) (s : Limiter) (store : List Ban)
    (now : Int) (ip : String) :
    (inspectTail cfg s store now ip).2 = (s, store) := by
  unfold inspectTail
  by_cases ht : 0 < (prune (s.throttleByIP ip) cfg.throttleWindow now).length
  · simp [ht]
  · by_cases hf : (s.flaggedIPs ip).isSome = true <;> simp [ht, hf]

lemma inspectTail_not_ban (cfg : Config) (s : Limiter) (store : List Ban)
    (now : Int) (ip : String) :
    (inspectTail cfg s store now ip).1.action ≠ Action.BAN := by
  unfold inspectTail
  by_cases ht : 0 < (prune (s.throttleByIP ip) cfg.throttleWindow now).length
  · simp [ht]
  · by_cases hf : (s.flaggedIPs ip).isSome = true <;> simp [ht, hf]

lemma getBan_banIP (store : List Ban) (b : Ban) :
    getBan (banIP store b) b.IP = some b := by
  induction store with
  | nil => simp [getBan, banIP, List.find?]
  | cons e l ih =>
    by_cases h : e.IP = b.IP
    · simpa [banIP, h] using ih
    · have hne : (e.IP != b.IP) = true := by simp [h]
      have hfind : (e.IP == b.IP) = false := by simp [h]
      simp only [getBan, banIP, List.filter_cons, hne, if_pos rfl,
        List.cons_append, List.find?, hfind]
      exact ih

lemma getBan_unbanIP (store : List Ban) (ip : String) :
    getBan (unbanIP store ip) ip = none := by
  induction store with
  | nil => simp [getBan, unbanIP]
  | cons e l ih =>
    by_cases h : e.IP = ip
    · simpa [unbanIP, h] using ih
    · have hne : (e.IP != ip) = true := by simp [h]
      have hfind : (e.IP == ip) = false := by simp [h]
      simp only [getBan, unbanIP, List.filter_cons, hne, if_pos rfl,
        List.find?, hfind]
      exact ih

lemma LoadBans_banIP (s : Limiter) (store : List Ban) (b : Ban) :
    (LoadBans s (banIP store b)).bannedCache b.IP = some b := by
  simp [LoadBans, banIP, List.foldl_append, updateFun]

/-- Engine state and decision of the counterexample run for the
persistence claim: request limit 0 and throttle limit 1 over an already
flagged IP make a single request return BAN. -/
def banRunCfg : Config := ⟨10, 0, 10, 1, 2, 5⟩

/-- The engine already has `1.2.3.4` flagged, nothing else. -/
def banRunLim : Limiter :=
  { NewLimiter with
    flaggedIPs := fun ip => if ip = "1.2.3.4" then some 0 else none }

/-- The single request escalating straight to BAN. -/
def banRunReq : RequestLog := ⟨1, "1.2.3.4", "GET", "/"⟩

/-- C2 counterexample: a `LogRequest` call that returns a BAN decision over
an empty `banned_ips` table leaves that table empty — no ban record has
been written when `LogRequest` returns. -/
theorem logRequest_ban_not_persisted :
    (step banRunCfg ⟨banRunLim, []⟩ (Op.logReq banRunReq)).2 =
      some ⟨Action.BAN, "1.2.3.4", "auto-ban: repeated throttling", 0⟩ ∧
    (step banRunCfg ⟨banRunLim, []⟩ (Op.logReq banRunReq)).1.store = [] := by
  constructor <;> rfl

/-- C2 (amended): `LogRequest` never writes the Ban Store, even when the
decision is BAN; the ban is persisted only when the caller subsequently
invokes `RecordBan`, which upserts the record (and mirrors it) before
returning. -/
theorem logRequest_persistence_split :
    (∀ (cfg : Config) (s : Sys) (r : RequestLog),
      (step cfg s (Op.logReq r)).1.store = s.store) ∧
    (∀ (cfg : Config) (s : Limiter) (store : List Ban) (now : Int)
        (ip reason : String),
      getBan (RecordBan cfg s store false now ip reason).2.2 ip =
        some ⟨ip, reason, now, some (now + cfg.banDuration)⟩ ∧
      (RecordBan cfg s store false now ip reason).2.1.bannedCache ip =
        some ⟨ip, reason, now, some (now + cfg.banDuration)⟩) := by
  refine ⟨fun cfg s r => rfl, fun cfg s store now ip reason => ⟨?_, ?_⟩⟩
  · exact getBan_banIP store ⟨ip, reason, now, some (now + cfg.banDuration)⟩
  · simp [RecordBan, updateFun]

/-- C3: a successful `RecordBan` writes the auto-ban through `BanIP`;
`ListBans` of the same store hands it to a fresh engine's `LoadBans`, after
which `IsBanned` reports the ban as long as `expires_at` has not passed,
reports not-banned once it has, and reports not-banned after `Unban`. -/
theorem recordBan_durable (cfg : Config) (s : Limiter) (store : List Ban)
    (now : Int) (x reason : String) :
    (RecordBan cfg s store false now x reason).1 =
      Except.ok (⟨x, reason, now, some (now + cfg.banDuration)⟩ : Ban) ∧
    (LoadBans NewLimiter
        (RecordBan cfg s store false now x reason).2.2).bannedCache x =
      some ⟨x, reason, now, some (now + cfg.banDuration)⟩ ∧
    (∀ now2 : Int, now2 ≤ now + cfg.banDuration →
      (IsBanned
          (LoadBans NewLimiter (RecordBan cfg s store false now x reason).2.2)
          (RecordBan cfg s store false now x reason).2.2 now2 x).1 =
        (true, ⟨x, reason, now, some (now + cfg.banDuration)⟩)) ∧
    (∀ now2 : Int, now + cfg.banDuration < now2 →
      (IsBanned
          (LoadBans NewLimiter (RecordBan cfg s store false now x reason).2.2)
          (RecordBan cfg s store false now x reason).2.2 now2 x).1.1 =
        false) ∧
    (∀ now2 : Int,
      (IsBanned
          (Unban
            (LoadBans NewLimiter (RecordBan cfg s store false now x reason).2.2)
            (RecordBan cfg s store false now x reason).2.2 false x).2.1
          (Unban
            (LoadBans NewLimiter (RecordBan cfg s store false now x reason).2.2)
            (RecordBan cfg s store false now x reason).2.2 false x).2.2
          now2 x).1.1 = false) := by
  have hst : (RecordBan cfg s store false now x reason).2.2 =
      banIP store ⟨x, reason, now, some (now + cfg.banDuration)⟩ := rfl
  have hload := LoadBans_banIP NewLimiter store
    ⟨x, reason, now, some (now + cfg.banDuration)⟩
  refine ⟨rfl, by rw [hst]; exact hload, ?_, ?_, ?_⟩
  · intro now2 h2
    rw [hst]
    simp [IsBanned, hload, not_lt.mpr h2]
  · intro now2 h2
    rw [hst]
    simp [IsBanned, hload, h2]
  · intro now2
    rw [hst]
    simp [IsBanned, Unban, updateFun]

/-- C3 witness: banning `9.9.9.9` at time 10 with duration 5 on an empty
store; a fresh hydrated engine still reports it banned at time 15, the
boundary of `expires_at`. -/
theorem recordBan_durable_witness :
    (15 : Int) ≤ 10 + (⟨1, 5, 10, 3, 5, 50⟩ : Config).banDuration ∧
    (IsBanned
        (LoadBans NewLimiter
          (RecordBan ⟨1, 5, 10, 3, 5, 50⟩ NewLimiter [] false 10
            "9.9.9.9" "auto-ban: repeated throttling").2.2)
        (RecordBan ⟨1, 5, 10, 3, 5, 50⟩ NewLimiter [] false 10
          "9.9.9.9" "auto-ban: repeated throttling").2.2 15 "9.9.9.9").1 =
      (true, ⟨"9.9.9.9", "auto-ban: repeated throttling", 10, some 15⟩) :=
  ⟨by norm_num,
    (recordBan_durable ⟨1, 5, 10, 3, 5, 50⟩ NewLimiter [] 10 "9.9.9.9"
      "auto-ban: repeated throttling").2.2.1 15 (by norm_num)⟩

/-- C4: lazy expiry — when the mirror holds a ban for `x` whose
`expires_at` is strictly in the past, the next `IsBanned` answers
`(false, no ban)` and the entry is gone from both the mirror and the
store, and the next `Inspect` does not answer BAN and removes the entry
the same way. -/
theorem lazy_expiry (cfg : Config) (s : Limiter) (store : List Ban)
    (now : Int) (x : String) (b : Ban) (e : Int)
    (hb : s.bannedCache x = some b) (he : b.ExpiresAt = some e)
    (hlt : e < now) :
    ((IsBanned s store now x).1 = (false, emptyBan) ∧
      (IsBanned s store now x).2.1.bannedCache x = none ∧
      getBan (IsBanned s store now x).2.2 x = none) ∧
    ((Inspect cfg s store now x).1.action ≠ Action.BAN ∧
      (Inspect cfg s store now x).2.1.bannedCache x = none ∧
      getBan (Inspect cfg s store now x).2.2 x = none) := by
  have hib : IsBanned s store now x =
      ((false, emptyBan),
        { s with bannedCache := updateFun s.bannedCache x none },
        unbanIP store x) := by
    simp [IsBanned, hb, he, hlt]
  have hins : Inspect cfg s store now x =
      inspectTail cfg { s with bannedCache := updateFun s.bannedCache x none }
        (unbanIP store x) now x := by
    simp [Inspect, hb, he, hlt]
  have htail := inspectTail_snd cfg
    { s with bannedCache := updateFun s.bannedCache x none }
    (unbanIP store x) now x
  have hact := inspectTail_not_ban cfg
    { s with bannedCache := updateFun s.bannedCache x none }
    (unbanIP store x) now x
  refine ⟨⟨?_, ?_, ?_⟩, ⟨?_, ?_, ?_⟩⟩
  · rw [hib]
  · rw [hib]; simp [updateFun]
  · rw [hib]; exact getBan_unbanIP store x
  · rw [hins]; exact hact
  · rw [hins, show (inspectTail cfg _ (unbanIP store x) now x).2.1.bannedCache x
        = _ from congrArg (fun p => p.1.bannedCache x) htail]
    simp [updateFun]
  · rw [hins, show (inspectTail cfg _ (unbanIP store x) now x).2.2
        = _ from congrArg (fun p => p.2) htail]
    exact getBan_unbanIP store x

/-- C4 witness: IP `4.4.4.4` banned until time 1, checked at time 2 — both
`IsBanned` and `Inspect` report not banned and scrub mirror and store. -/
theorem lazy_expiry_witness :
    ((IsBanned (LoadBans NewLimiter [⟨"4.4.4.4", "r", 0, some 1⟩])
        [⟨"4.4.4.4", "r", 0, some 1⟩] 2 "4.4.4.4").1 = (false, emptyBan)) ∧
    ((Inspect ⟨1, 5, 10, 3, 5, 50⟩
        (LoadBans NewLimiter [⟨"4.4.4.4", "r", 0, some 1⟩])
        [⟨"4.4.4.4", "r", 0, some 1⟩] 2 "4.4.4.4").1.action ≠ Action.BAN) :=
  ⟨(lazy_expiry ⟨1, 5, 10, 3, 5, 50⟩
      (LoadBans NewLimiter [⟨"4.4.4.4", "r", 0, some 1⟩])
      [⟨"4.4.4.4", "r", 0, some 1⟩] 2 "4.4.4.4" ⟨"4.4.4.4", "r", 0, some 1⟩ 1
      (by simp [LoadBans, updateFun]) rfl (by norm_num)).1.1,
    ((lazy_expiry ⟨1, 5, 10, 3, 5, 50⟩
      (LoadBans NewLimiter [⟨"4.4.4.4", "r", 0, some 1⟩])
      [⟨"4.4.4.4", "r", 0, some 1⟩] 2 "4.4.4.4" ⟨"4.4.4.4", "r", 0, some 1⟩ 1
      (by simp [LoadBans, updateFun]) rfl (by norm_num)).2).1⟩

/-! ## Per-operation frame lemmas for the flagged set and the ring -/

lemma IsBanned_flaggedIPs (s : Limiter) (store : List Ban) (now : Int)
    (ip : String) :
    (IsBanned s store now ip).2.1.flaggedIPs = s.flaggedIPs := by
  cases hb : s.bannedCache ip with
  | none => simp [IsBanned, hb]
  | some b =>
    cases he : b.ExpiresAt with
    | none => simp [IsBanned, hb, he]
    | some e => by_cases h : e < now <;> simp [IsBanned, hb, he, h]

lemma IsBanned_recent (s : Limiter) (store : List Ban) (now : Int)
    (ip : String) :
    (IsBanned s store now ip).2.1.recentRequests = s.recentRequests := by
  cases hb : s.bannedCache ip with
  | none => simp [IsBanned, hb]
  | some b =>
    cases he : b.ExpiresAt with
    | none => simp [IsBanned, hb, he]
    | some e => by_cases h : e < now <;> simp [IsBanned, hb, he, h]

lemma Inspect_flaggedIPs (cfg : Config) (s : Limiter) (store : List Ban)
    (now : Int) (ip : String) :
    (Inspect cfg s store now ip).2.1.flaggedIPs = s.flaggedIPs := by
  cases hb : s.bannedCache ip with
  | none => simp [Inspect, hb, inspectTail_snd]
  | some b =>
    cases he : b.ExpiresAt with
    | none => simp [Inspect, hb, he]
    | some e => by_cases h : e < now <;> simp [Inspect, hb, he, h, inspectTail_snd]

lemma Inspect_recent (cfg : Config) (s : Limiter) (store : List Ban)
    (now : Int) (ip : String) :
    (Inspect cfg s store now ip).2.1.recentRequests = s.recentRequests := by
  cases hb : s.bannedCache ip with
  | none => simp [Inspect, hb, inspectTail_snd]
  | some b =>
    cases he : b.ExpiresAt with
    | none => simp [Inspect, hb, he]
    | some e => by_cases h : e < now <;> simp [Inspect, hb, he, h, inspectTail_snd]

lemma LogRequest_flaggedIPs (cfg : Config) (s : Limiter) (r : RequestLog) :
    (LogRequest cfg s r).2.flaggedIPs = s.flaggedIPs ∨
    (LogRequest cfg s r).2.flaggedIPs =
      updateFun s.flaggedIPs r.IP (some r.Time) := by
  by_cases h1 :
    (prune (s.reqByIP r.IP) cfg.requestWindow r.Time).length + 1 ≤
      cfg.requestLimit
  · left; simp [LogRequest, h1]
  · by_cases h2 : s.flaggedIPs r.IP = none
    · right; simp [LogRequest, h1, h2]
    · by_cases h3 :
        cfg.throttleLimit ≤
          (prune (s.throttleByIP r.IP) cfg.throttleWindow r.Time).length + 1 <;>
        left <;> simp [LogRequest, h1, h2, h3]

lemma LogRequest_recent (cfg : Config) (s : Limiter) (r : RequestLog) :
    (LogRequest cfg s r).2.recentRequests =
      (if cfg.inMemoryLogLimit ≤ s.recentRequests.length then
        s.recentRequests.drop 1
      else s.recentRequests) ++ [r] := by
  by_cases h1 :
    (prune (s.reqByIP r.IP) cfg.requestWindow r.Time).length + 1 ≤
      cfg.requestLimit
  · simp [LogRequest, h1]
  · by_cases h2 : s.flaggedIPs r.IP = none
    · simp [LogRequest, h1, h2]
    · by_cases h3 :
        cfg.throttleLimit ≤
          (prune (s.throttleByIP r.IP) cfg.throttleWindow r.Time).length + 1 <;>
        simp [LogRequest, h1, h2, h3]

lemma step_flaggedIPs_mono (cfg : Config) (s : Sys) (op : Op) (x : String)
    (h : (s.lim.flaggedIPs x).isSome = true) :
    (((step cfg s op).1).lim.flaggedIPs x).isSome = true := by
  cases op with
  | logReq r =>
    rcases LogRequest_flaggedIPs cfg s.lim r with hE | hE <;>
      simp only [step, hE]
    · exact h
    · by_cases hx : x = r.IP <;> simp [updateFun, hx, h]
  | bannedQ now ip => simpa [step, IsBanned_flaggedIPs] using h
  | inspectQ now ip => simpa [step, Inspect_flaggedIPs] using h
  | unbanQ e ip => cases e <;> simpa [step, Unban] using h
  | banQ e now ip reason => cases e <;> simpa [step, RecordBan] using h
  | manualBanQ e now ip reason dur =>
    cases e <;> simpa [step, RecordManualBan] using h
  | loadQ => simpa [step, LoadBans] using h

lemma step_flagStep_le_one (cfg : Config) (s : Sys) (op : Op) (x : String) :
    flagStep x op (step cfg s op).2 ≤ 1 := by
  cases op <;> simp only [flagStep, step] <;> first
    | omega
    | (split <;> omega)

lemma step_flagStep_flagged (cfg : Config) (s : Sys) (op : Op) (x : String)
    (h : (s.lim.flaggedIPs x).isSome = true) :
    flagStep x op (step cfg s op).2 = 0 := by
  cases op with
  | logReq r =>
    by_cases h1 :
      (prune (s.lim.reqByIP r.IP) cfg.requestWindow r.Time).length + 1 ≤
        cfg.requestLimit
    · simp [step, flagStep, LogRequest, h1]
    · by_cases h2 : s.lim.flaggedIPs r.IP = none
      · have hne : ¬ (r.IP = x) := by
          intro hEq
          rw [← hEq] at h
          rw [h2] at h
          simp at h
        simp [step, flagStep, LogRequest, h1, h2, hne]
      · by_cases h3 :
          cfg.throttleLimit ≤
            (prune (s.lim.throttleByIP r.IP) cfg.throttleWindow r.Time).length
              + 1 <;>
          simp [step, flagStep, LogRequest, h1, h2, h3]
  | bannedQ now ip => rfl
  | inspectQ now ip => rfl
  | unbanQ e ip => rfl
  | banQ e now ip reason => rfl
  | manualBanQ e now ip reason dur => rfl
  | loadQ => rfl

lemma step_flagStep_sets (cfg : Config) (s : Sys) (op : Op) (x : String)
    (h : flagStep x op (step cfg s op).2 = 1) :
    (((step cfg s op).1).lim.flaggedIPs x).isSome = true := by
  cases op with
  | logReq r =>
    by_cases h1 :
      (prune (s.lim.reqByIP r.IP) cfg.requestWindow r.Time).length + 1 ≤
        cfg.requestLimit
    · simp [step, flagStep, LogRequest, h1] at h
    · by_cases h2 : s.lim.flaggedIPs r.IP = none
      · by_cases hx : r.IP = x
        · simp [step, LogRequest, h1, h2, ← hx, updateFun]
        · simp [step, flagStep, LogRequest, h1, h2, hx] at h
      · by_cases h3 :
          cfg.throttleLimit ≤
            (prune (s.lim.throttleByIP r.IP) cfg.throttleWindow r.Time).length
              + 1 <;>
          simp [step, flagStep, LogRequest, h1, h2, h3] at h
  | bannedQ now ip => simp [flagStep] at h
  | inspectQ now ip => simp [flagStep] at h
  | unbanQ e ip => simp [flagStep] at h
  | banQ e now ip reason => simp [flagStep] at h
  | manualBanQ e now ip reason dur => simp [flagStep] at h
  | loadQ => simp [flagStep] at h

lemma flagCount_bound (cfg : Config) (x : String) :
    ∀ (ops : List Op) (s : Sys),
      flagCount cfg x s ops ≤
        (if (s.lim.flaggedIPs x).isSome then 0 else 1) := by
  intro ops
  induction ops with
  | nil => intro s; simp [flagCount]
  | cons op ops ih =>
    intro s
    have hm := ih (step cfg s op).1
    have hle := step_flagStep_le_one cfg s op x
    simp only [flagCount]
    by_cases hf : (s.lim.flaggedIPs x).isSome = true
    · have h0 := step_flagStep_flagged cfg s op x hf
      have hf2 := step_flaggedIPs_mono cfg s op x hf
      rw [if_pos hf]
      rw [if_pos hf2] at hm
      omega
    · rw [if_neg hf]
      by_cases h1 : flagStep x op (step cfg s op).2 = 1
      · have hf2 := step_flagStep_sets cfg s op x h1
        rw [if_pos hf2] at hm
        omega
      · have hb : flagCount cfg x (step cfg s op).1 ops ≤ 1 :=
          le_trans hm (by split <;> omega)
        omega

/-- C5: over any serial sequence of engine calls starting from a fresh
engine, at most one `LogRequest` call is answered FLAG for a given IP, and
no single call — `LogRequest`, `IsBanned`, `Inspect`, `Unban`
(successful or failed), `RecordBan`, `RecordManualBan` or `LoadBans` —
ever removes an IP from the flagged set: flagging is sticky for the
process lifetime. -/
theorem flag_once (cfg : Config) (x : String) (store : List Ban)
    (ops : List Op) :
    flagCount cfg x ⟨NewLimiter, store⟩ ops ≤ 1 ∧
    (∀ (s : Sys) (op : Op), (s.lim.flaggedIPs x).isSome = true →
      (((step cfg s op).1).lim.flaggedIPs x).isSome = true) := by
  constructor
  · have h := flagCount_bound cfg x ops ⟨NewLimiter, store⟩
    exact le_trans h (by split <;> omega)
  · exact fun s op h => step_flaggedIPs_mono cfg s op x h

/-- C5 witness: nine rapid requests from one IP produce at most one FLAG,
and a `LoadBans` call on an engine with `8.8.8.8` flagged leaves it
flagged. -/
theorem flag_once_witness :
    flagCount ⟨1, 5, 10, 3, 2, 50⟩ "8.8.8.8" ⟨NewLimiter, []⟩
      (List.replicate 9 (Op.logReq ⟨0, "8.8.8.8", "GET", "/"⟩)) ≤ 1 ∧
    ((step ⟨1, 5, 10, 3, 2, 50⟩
        ⟨{ NewLimiter with
            flaggedIPs := fun ip => if ip = "8.8.8.8" then some 0 else none },
          []⟩ Op.loadQ).1.lim.flaggedIPs "8.8.8.8").isSome = true :=
  ⟨(flag_once ⟨1, 5, 10, 3, 2, 50⟩ "8.8.8.8" []
      (List.replicate 9 (Op.logReq ⟨0, "8.8.8.8", "GET", "/"⟩))).1,
    (flag_once ⟨1, 5, 10, 3, 2, 50⟩ "8.8.8.8" [] []).2
      ⟨{ NewLimiter with
          flaggedIPs := fun ip => if ip = "8.8.8.8" then some 0 else none },
        []⟩ Op.loadQ (by decide)⟩

lemma step_ring_bound (cfg : Config) (s : Sys) (op : Op)
    (hcap : 1 ≤ cfg.inMemoryLogLimit)
    (h : s.lim.recentRequests.length ≤ cfg.inMemoryLogLimit) :
    ((step cfg s op).1).lim.recentRequests.length ≤ cfg.inMemoryLogLimit := by
  cases op with
  | logReq r =>
    show (LogRequest cfg s.lim r).2.recentRequests.length ≤ _
    rw [LogRequest_recent, List.length_append]
    by_cases hl : cfg.inMemoryLogLimit ≤ s.lim.recentRequests.length
    · rw [if_pos hl]
      simp only [List.length_drop, List.length_singleton]
      omega
    · rw [if_neg hl]
      simp only [List.length_singleton]
      omega
  | bannedQ now ip => simpa [step, IsBanned_recent] using h
  | inspectQ now ip => simpa [step, Inspect_recent] using h
  | unbanQ e ip => cases e <;> simpa [step, Unban] using h
  | banQ e now ip reason => cases e <;> simpa [step, RecordBan] using h
  | manualBanQ e now ip reason dur =>
    cases e <;> simpa [step, RecordManualBan] using h
  | loadQ => simpa [step, LoadBans] using h

lemma runOps_ring_bound (cfg : Config) (hcap : 1 ≤ cfg.inMemoryLogLimit) :
    ∀ (ops : List Op) (s : Sys),
      s.lim.recentRequests.length ≤ cfg.inMemoryLogLimit →
      (runOps cfg s ops).lim.recentRequests.length ≤ cfg.inMemoryLogLimit := by
  intro ops
  induction ops with
  | nil => intro s h; simpa [runOps] using h
  | cons op ops ih =>
    intro s h
    exact ih (step cfg s op).1 (step_ring_bound cfg s op hcap h)

/-- C9: with `in_memory_log_limit ≥ 1`, the recent-events ring of an
engine reachable from a fresh one by any serial call sequence never holds
more than `in_memory_log_limit` entries; every `LogRequest` appends its
event, and when the ring is at capacity the single oldest entry is dropped
first, the rest keeping their order. -/
theorem ring_bound (cfg : Config) (store : List Ban) (ops : List Op)
    (hcap : 1 ≤ cfg.inMemoryLogLimit) :
    (runOps cfg ⟨NewLimiter, store⟩ ops).lim.recentRequests.length ≤
      cfg.inMemoryLogLimit ∧
    (∀ (s : Limiter) (r : RequestLog),
      (LogRequest cfg s r).2.recentRequests =
        (if cfg.inMemoryLogLimit ≤ s.recentRequests.length then
          s.recentRequests.drop 1
        else s.recentRequests) ++ [r]) := by
  refine ⟨runOps_ring_bound cfg hcap ops ⟨NewLimiter, store⟩ ?_,
    fun s r => LogRequest_recent cfg s r⟩
  simp [NewLimiter]

/-- C9 witness: a two-deep ring capped at 1 after two requests still holds
one entry. -/
theorem ring_bound_witness :
    1 ≤ (⟨10, 0, 10, 1, 2, 1⟩ : Config).inMemoryLogLimit ∧
    (runOps ⟨10, 0, 10, 1, 2, 1⟩ ⟨NewLimiter, []⟩
        [Op.logReq ⟨1, "a", "GET", "/"⟩,
          Op.logReq ⟨2, "a", "GET", "/"⟩]).lim.recentRequests.length ≤
      (⟨10, 0, 10, 1, 2, 1⟩ : Config).inMemoryLogLimit :=
  ⟨by decide,
    (ring_bound ⟨10, 0, 10, 1, 2, 1⟩ []
      [Op.logReq ⟨1, "a", "GET", "/"⟩, Op.logReq ⟨2, "a", "GET", "/"⟩]
      (by decide)).1⟩

end Tower
